import Mathlib

/-! # The ANYmal control callback of `examples/src/robots/anymal.cpp`

A shallow embedding of the lambda `controller` installed by `main` with
`vis->setControlCallback(controller)`, and of the state it captures.

Modelling decisions:

* `double` values (elapsed time, poses, noise draws, robot read-back) are exact
  rationals; `controllerDouble` and `runDouble` repeat the callback with the
  elapsed time advanced by the rounded sum of two `double`s.
* `static size_t controlDecimation` is a natural number below `2 ^ 64`; the
  post-increment wraps at `2 ^ 64`.
* `std::default_random_engine` with `std::normal_distribution<double>` is an
  explicit stream of draws `noise : Nat → ℚ`; the generator state is the number
  of draws already consumed.
* the physics engine, which moves the robot between two invocations of the
  callback, is an arbitrary function `physics : Nat → Robot → Robot`.
* every call the callback makes on the robot or on the GUI sink is also
  recorded in a per-invocation log of `Call`s, so that "a target is issued" and
  "a sample is pushed" are observable.
-/

namespace Anymal

/-! ## Constants of `main` -/

/-- The modulus of `size_t` arithmetic: `SIZE_MAX + 1` on the 64-bit target. -/
def SIZE_MODULUS : Nat := 2 ^ 64

/-- The value `world.getTimeStep()` returns: `world.setTimeStep(0.0025)`. -/
def timeStep : ℚ := 0.0025

/-- The pose given to `anymal->setGeneralizedCoordinate` (lines 120 and 138). -/
def resetPose : List ℚ :=
  [0, 0, 0.54, 1.0, 0.0, 0.0, 0.0, 0.03, 0.4,
   -0.8, -0.03, 0.4, -0.8, 0.03, -0.4, 0.8, -0.03, -0.4, 0.8]

/-- The pose streamed into `jointNominalConfig` (line 150). -/
def referencePose : List ℚ :=
  [0, 0, 0, 0, 0, 0, 0, 0.03, 0.3, -0.6, -0.03, 0.3, -0.6, 0.03, -0.3, 0.6, -0.03, -0.3, 0.6]

/-! ## Eigen vectors -/

/-- The Eigen block `v.tail(n)`: the last `n` entries of `v`. On a vector of
fewer than `n` entries, where the source is out of bounds, it is all of `v`. -/
def tail (n : Nat) (v : List ℚ) : List ℚ :=
  v.drop (v.length - n)

/-- The Eigen call `v.setZero()` on a vector of size `n`. -/
def setZero (n : Nat) : List ℚ :=
  List.replicate n 0

/-! ## The robot and the GUI sink -/

/-- The part of `raisim::ArticulatedSystem` the callback reads or writes. -/
structure Robot where
  generalizedCoordinate : List ℚ
  generalizedVelocity : List ℚ
  generalizedForce : List ℚ
  pTarget : List ℚ
  dTarget : List ℚ
deriving DecidableEq

/-- The setter `anymal->setGeneralizedCoordinate(q)`. -/
def Robot.setGeneralizedCoordinate (r : Robot) (q : List ℚ) : Robot :=
  { r with generalizedCoordinate := q }

/-- The setter `anymal->setPdTarget(p, v)`. -/
def Robot.setPdTarget (r : Robot) (p v : List ℚ) : Robot :=
  { r with pTarget := p, dTarget := v }

/-- The globals of `namespace raisim::anymal_gui` (lines 33-34): one entry per
pushed sample in each of the three buffers. -/
structure Gui where
  jointSpeed : List (List ℚ)
  jointTorque : List (List ℚ)
  time : List ℚ
deriving DecidableEq

namespace anymal_gui

/-- Modelled from the spec: `raisim::anymal_gui::clear` is declared in
`anymal_imgui_render_callback.hpp`, which is not among the sources; the sink
"accepts ... a clear operation" and the buffers are "cleared on pose reset". -/
def clear (_g : Gui) : Gui :=
  { jointSpeed := [], jointTorque := [], time := [] }

/-- Modelled from the spec: `raisim::anymal_gui::push_back` is declared in
`anymal_imgui_render_callback.hpp`, which is not among the sources; the sink
"accepts push of one (time, per-joint-speed-vector, per-joint-torque-vector)
sample" into "append-only sequences". -/
def push_back (g : Gui) (t : ℚ) (jointSpeed jointTorque : List ℚ) : Gui :=
  { jointSpeed := g.jointSpeed ++ [jointSpeed],
    jointTorque := g.jointTorque ++ [jointTorque],
    time := g.time ++ [t] }

end anymal_gui

/-- The calls one invocation of the callback makes on its collaborators. -/
inductive Call where
  | setGeneralizedCoordinate (q : List ℚ)
  | clear
  | setPdTarget (p v : List ℚ)
  | push_back (t : ℚ) (jointSpeed jointTorque : List ℚ)
deriving DecidableEq

/-- The target carried by a call, when the call is `setPdTarget`. -/
def Call.target? : Call → Option (List ℚ × List ℚ)
  | .setPdTarget p v => some (p, v)
  | _ => none

/-- The sample carried by a call, when the call is `push_back`. -/
def Call.sample? : Call → Option (ℚ × List ℚ × List ℚ)
  | .push_back t sp tq => some (t, sp, tq)
  | _ => none

/-- Whether the call writes the generalized coordinate. -/
def Call.isSetGeneralizedCoordinate : Call → Bool
  | .setGeneralizedCoordinate _ => true
  | _ => false

/-- Whether the call clears the telemetry buffers. -/
def Call.isClear : Call → Bool
  | .clear => true
  | _ => false

/-! ## The state captured by the callback -/

/-- Everything the lambda captures, and its function-local static. -/
structure State where
  /-- The function-local `static size_t controlDecimation`. -/
  controlDecimation : Nat
  /-- The captured `double time`. -/
  time : ℚ
  /-- The captured `generator`: the number of draws consumed so far. -/
  generator : Nat
  /-- The captured `Eigen::VectorXd jointTorque`. -/
  jointTorque : List ℚ
  /-- The captured `Eigen::VectorXd jointSpeed`. -/
  jointSpeed : List ℚ
  /-- The robot behind the captured pointer `anymal`. -/
  anymal : Robot
  /-- The globals of `raisim::anymal_gui`. -/
  gui : Gui
deriving DecidableEq

/-- The robot as `main` sets it up before the first invocation (lines 118-125):
the reset pose, zero generalized force; it is at rest and has no target yet. -/
def bootRobot : Robot :=
  { generalizedCoordinate := resetPose, generalizedVelocity := setZero 18,
    generalizedForce := setZero 18, pTarget := setZero 19, dTarget := setZero 18 }

/-- The state `main` leaves when it installs the callback: counter 0, elapsed
time 0, a fresh generator, empty telemetry buffers. The vectors `jointTorque`
and `jointSpeed`, which `main` leaves uninitialised and the callback writes
before it reads, start at zero. -/
def initialState (anymal : Robot) : State :=
  { controlDecimation := 0, time := 0, generator := 0,
    jointTorque := setZero 12, jointSpeed := setZero 12,
    anymal := anymal, gui := { jointSpeed := [], jointTorque := [], time := [] } }

/-! ## The callback -/

/-- One round of the loop of lines 152-153, at index `k`, with `g` draws
consumed so far: `jointNominalConfig(k) += distribution(generator)`. The vector
has 19 entries; at an index outside it the source writes out of bounds, and the
model leaves the vector as it is. The draw is consumed in both cases. -/
def addDraw (noise : Nat → ℚ) (acc : List ℚ × Nat) (k : Nat) : List ℚ × Nat :=
  (acc.1.modify (fun x => x + noise acc.2) k, acc.2 + 1)

/-- The loop of lines 152-153:
`for (size_t k = 0; k < anymal->getGeneralizedCoordinateDim(); k++)`. -/
def addNoise (noise : Nat → ℚ) (dim : Nat) (jointNominalConfig : List ℚ) (g : Nat) :
    List ℚ × Nat :=
  (List.range dim).foldl (addDraw noise) (jointNominalConfig, g)

/-- Line 135: `time += world.getTimeStep()`. -/
def advanceTime (s : State) : State :=
  { s with time := s.time + timeStep }

/-- Lines 137-142: the test `controlDecimation++ % 2500 == 0` reads the counter,
increments it, and on a multiple of 2500 runs the reset branch. -/
def resetGate (s : State) : State × List Call :=
  let fire := s.controlDecimation % 2500 = 0
  let s1 := { s with controlDecimation := (s.controlDecimation + 1) % SIZE_MODULUS }
  if fire then
    ({ s1 with anymal := s1.anymal.setGeneralizedCoordinate resetPose,
               gui := anymal_gui.clear s1.gui,
               time := 0 },
     [Call.setGeneralizedCoordinate resetPose, Call.clear])
  else (s1, [])

/-- Lines 144-160: the test `controlDecimation % 50 != 0` on the counter as the
reset gate left it, and the re-target that follows when it does not return. -/
def retargetGate (dim : Nat) (noise : Nat → ℚ) (s : State) : State × List Call :=
  if s.controlDecimation % 50 ≠ 0 then (s, [])
  else
    let jointVelocityTarget := setZero 18
    let drawn := addNoise noise dim referencePose s.generator
    let jointNominalConfig := drawn.1
    let anymal := s.anymal.setPdTarget jointNominalConfig jointVelocityTarget
    let jointTorque := tail 12 anymal.generalizedForce
    let jointSpeed := tail 12 anymal.generalizedVelocity
    ({ s with generator := drawn.2,
              anymal := anymal,
              jointTorque := jointTorque,
              jointSpeed := jointSpeed,
              gui := anymal_gui.push_back s.gui s.time jointSpeed jointTorque },
     [Call.setPdTarget jointNominalConfig jointVelocityTarget,
      Call.push_back s.time jointSpeed jointTorque])

/-- The lambda `controller` (lines 133-161). `dim` is what
`anymal->getGeneralizedCoordinateDim()` returns. The result is the state after
the invocation and the calls it made, in order. -/
def controller (dim : Nat) (noise : Nat → ℚ) (s : State) : State × List Call :=
  let r := resetGate (advanceTime s)
  let t := retargetGate dim noise r.1
  (t.1, r.2 ++ t.2)

/-- The targets an invocation issued. -/
def issuedTargets (calls : List Call) : List (List ℚ × List ℚ) :=
  calls.filterMap Call.target?

/-- The telemetry samples an invocation pushed. -/
def pushedSamples (calls : List Call) : List (ℚ × List ℚ × List ℚ) :=
  calls.filterMap Call.sample?

/-- Whether an invocation wrote the generalized coordinate. -/
def wroteCoordinate (calls : List Call) : Bool :=
  calls.any Call.isSetGeneralizedCoordinate

/-- Whether an invocation cleared the telemetry buffers. -/
def clearedTelemetry (calls : List Call) : Bool :=
  calls.any Call.isClear

/-! ## Runs of the simulation loop -/

/-- The state after `n` rounds of the simulation loop: in round `i` the
callback runs, then the physics engine moves the robot. -/
def run (dim : Nat) (noise : Nat → ℚ) (physics : Nat → Robot → Robot) : Nat → State → State
  | 0, s => s
  | n + 1, s =>
    let s1 := (controller dim noise (run dim noise physics n s)).1
    { s1 with anymal := physics n s1.anymal }

/-- The calls made by invocation `i` (counted from 0) of a run. -/
def callsAt (dim : Nat) (noise : Nat → ℚ) (physics : Nat → Robot → Robot) (s : State)
    (i : Nat) : List Call :=
  (controller dim noise (run dim noise physics i s)).2

/-- The number of reset events among the first `n` invocations of a run. -/
def resetCount (dim : Nat) (noise : Nat → ℚ) (physics : Nat → Robot → Robot) (s : State)
    (n : Nat) : Nat :=
  ((List.range n).filter fun i => clearedTelemetry (callsAt dim noise physics s i)).length

/-- The targets issued during the first `n` invocations of a run, each with the
index of the invocation that issued it. -/
def targetLog (dim : Nat) (noise : Nat → ℚ) (physics : Nat → Robot → Robot) (s : State)
    (n : Nat) : List (Nat × List ℚ × List ℚ) :=
  (List.range n).flatMap fun i =>
    (issuedTargets (callsAt dim noise physics s i)).map fun t => (i, t)

/-! ## The elapsed time in the arithmetic of `double`

The definitions above add the timestep to the elapsed time exactly. Line 135
adds two `double`s, and the sum is rounded. The definitions below repeat the
callback with that rounded sum; the two gates are the same. -/

/-- The value of a count of units of `2 ^ -61`. A double from `2 ^ -9` on, as
the double 0.0025 is, has its last place at `2 ^ -61` or above, so it is a
multiple of `2 ^ -61`, and so is a sum of such doubles. -/
def fromUnits (n : Nat) : ℚ :=
  n / 2 ^ 61

/-- The count of units of `2 ^ -61` in a non-negative multiple of `2 ^ -61`. -/
def toUnits (x : ℚ) : Nat :=
  ⌊x * 2 ^ 61⌋₊

/-- The number of leading halvings that bring `n` below `2 ^ 53`, with `fuel`
rounds to find it. -/
def excessBitsAux : Nat → Nat → Nat
  | 0, _ => 0
  | fuel + 1, n => if n < 2 ^ 53 then 0 else excessBitsAux fuel (n / 2) + 1

/-- The number of bits `n` has beyond the 53 of a double's significand. -/
def excessBits (n : Nat) : Nat :=
  excessBitsAux n n

/-- The rounding of a `double` operation, on counts of units: the nearest count
that fits a 53-bit significand, a tie going to the even significand. The
exponent range is not modelled: the elapsed time stays between `2 ^ -9` and 7. -/
def roundDouble (n : Nat) : Nat :=
  let shift := excessBits n
  let q := n / 2 ^ shift
  let r := n % 2 ^ shift
  if 2 * r < 2 ^ shift then q * 2 ^ shift
  else if 2 ^ shift < 2 * r then (q + 1) * 2 ^ shift
  else if q % 2 = 0 then q * 2 ^ shift
  else (q + 1) * 2 ^ shift

/-- The `double` sum `x + y` of two doubles that are non-negative multiples of
`2 ^ -61`: the exact sum, rounded. -/
def doubleAdd (x y : ℚ) : ℚ :=
  fromUnits (roundDouble (toUnits (x + y)))

/-- The double that the literal `0.0025` of line 78 denotes: the multiple of
`2 ^ -61` nearest to 0.0025, whose count of units has 53 bits. -/
def timeStepDouble : ℚ :=
  fromUnits ⌊timeStep * 2 ^ 61 + 1 / 2⌋₊

/-- Line 135, `time += world.getTimeStep()`, as the `double` sum. -/
def advanceTimeDouble (s : State) : State :=
  { s with time := doubleAdd s.time timeStepDouble }

/-- The lambda `controller` (lines 133-161) with the elapsed time advanced by the
`double` sum. -/
def controllerDouble (dim : Nat) (noise : Nat → ℚ) (s : State) : State × List Call :=
  let r := resetGate (advanceTimeDouble s)
  let t := retargetGate dim noise r.1
  (t.1, r.2 ++ t.2)

/-- The state after `n` rounds of the simulation loop, the elapsed time being
advanced by the `double` sum. -/
def runDouble (dim : Nat) (noise : Nat → ℚ) (physics : Nat → Robot → Robot) :
    Nat → State → State
  | 0, s => s
  | n + 1, s =>
    let s1 := (controllerDouble dim noise (runDouble dim noise physics n s)).1
    { s1 with anymal := physics n s1.anymal }

/-- The calls made by invocation `i` (counted from 0) of such a run. -/
def callsAtDouble (dim : Nat) (noise : Nat → ℚ) (physics : Nat → Robot → Robot) (s : State)
    (i : Nat) : List Call :=
  (controllerDouble dim noise (runDouble dim noise physics i s)).2

/-- The elapsed time `k` invocations after a reset: the timestep added `k`
times to 0, each sum rounded as the `double` sum is. -/
def doubleSum (k : Nat) : ℚ :=
  (fun t => doubleAdd t timeStepDouble)^[k] 0

/-- The count of units of `doubleSum k`. -/
def doubleSumUnits (k : Nat) : Nat :=
  (fun n => roundDouble (n + 5764607523034235))^[k] 0

/-! ## The callback, case by case -/

theorem size_modulus_eq : SIZE_MODULUS = 18446744073709551616 := by
  norm_num [SIZE_MODULUS]

theorem timeStep_eq : timeStep = 1 / 400 := by
  norm_num [timeStep]

/-- The counter that follows a multiple of 2500 is never a multiple of 50, also
across the wrap of `size_t`. -/
theorem next_not_multiple_of_50 (c : Nat) (h : c % 2500 = 0) :
    (c + 1) % SIZE_MODULUS % 50 ≠ 0 := by
  rw [size_modulus_eq]; omega

theorem controller_reset (dim : Nat) (noise : Nat → ℚ) (s : State)
    (h : s.controlDecimation % 2500 = 0) :
    controller dim noise s =
      ({ s with controlDecimation := (s.controlDecimation + 1) % SIZE_MODULUS,
                anymal := s.anymal.setGeneralizedCoordinate resetPose,
                gui := anymal_gui.clear s.gui,
                time := 0 },
       [Call.setGeneralizedCoordinate resetPose, Call.clear]) := by
  have h50 := next_not_multiple_of_50 s.controlDecimation h
  simp [controller, resetGate, advanceTime, retargetGate, h, h50]

theorem controller_idle (dim : Nat) (noise : Nat → ℚ) (s : State)
    (h : s.controlDecimation % 2500 ≠ 0)
    (h50 : (s.controlDecimation + 1) % SIZE_MODULUS % 50 ≠ 0) :
    controller dim noise s =
      ({ s with controlDecimation := (s.controlDecimation + 1) % SIZE_MODULUS,
                time := s.time + timeStep }, []) := by
  simp [controller, resetGate, advanceTime, retargetGate, h, h50]

theorem controller_retarget (dim : Nat) (noise : Nat → ℚ) (s : State)
    (h50 : (s.controlDecimation + 1) % SIZE_MODULUS % 50 = 0) :
    controller dim noise s =
      ({ s with controlDecimation := (s.controlDecimation + 1) % SIZE_MODULUS,
                time := s.time + timeStep,
                generator := (addNoise noise dim referencePose s.generator).2,
                anymal := s.anymal.setPdTarget
                  (addNoise noise dim referencePose s.generator).1 (setZero 18),
                jointTorque := tail 12 s.anymal.generalizedForce,
                jointSpeed := tail 12 s.anymal.generalizedVelocity,
                gui := anymal_gui.push_back s.gui (s.time + timeStep)
                  (tail 12 s.anymal.generalizedVelocity) (tail 12 s.anymal.generalizedForce) },
       [Call.setPdTarget (addNoise noise dim referencePose s.generator).1 (setZero 18),
        Call.push_back (s.time + timeStep)
          (tail 12 s.anymal.generalizedVelocity) (tail 12 s.anymal.generalizedForce)]) := by
  have h : s.controlDecimation % 2500 ≠ 0 := fun h0 =>
    next_not_multiple_of_50 s.controlDecimation h0 h50
  simp [controller, resetGate, advanceTime, retargetGate, h, h50, Robot.setPdTarget]

/-! ## The noise loop -/

theorem addNoise_snd (noise : Nat → ℚ) (dim : Nat) (cfg : List ℚ) (g : Nat) :
    (addNoise noise dim cfg g).2 = g + dim := by
  induction dim with
  | zero => simp [addNoise]
  | succ n ih =>
    simp only [addNoise, List.range_succ, List.foldl_append, List.foldl_cons,
      List.foldl_nil] at ih ⊢
    simp only [addDraw, ih]; omega

theorem addNoise_succ (noise : Nat → ℚ) (n : Nat) (cfg : List ℚ) (g : Nat) :
    addNoise noise (n + 1) cfg g =
      ((addNoise noise n cfg g).1.modify (fun x => x + noise (g + n)) n, g + n + 1) := by
  have h := addNoise_snd noise n cfg g
  simp only [addNoise, List.range_succ, List.foldl_append, List.foldl_cons,
    List.foldl_nil] at h ⊢
  simp only [addDraw, h]

theorem addNoise_getElem? (noise : Nat → ℚ) (dim : Nat) (cfg : List ℚ) (g k : Nat) :
    (addNoise noise dim cfg g).1[k]? =
      if k < dim then cfg[k]?.map (fun x => x + noise (g + k)) else cfg[k]? := by
  induction dim with
  | zero => simp [addNoise]
  | succ n ih =>
    rw [addNoise_succ]
    simp only [List.getElem?_modify, ih]
    by_cases h1 : n = k
    · subst h1; simp
    · by_cases h2 : k < n
      · have : k < n + 1 := by omega
        simp [h1, h2, this]
      · have : ¬ k < n + 1 := by omega
        simp [h1, h2, this]

theorem addNoise_length (noise : Nat → ℚ) (dim : Nat) (cfg : List ℚ) (g : Nat) :
    (addNoise noise dim cfg g).1.length = cfg.length := by
  induction dim with
  | zero => simp [addNoise]
  | succ n ih => rw [addNoise_succ]; simp [ih]

/-! ## What one invocation does, as a function of the state at entry -/

theorem controller_controlDecimation (dim : Nat) (noise : Nat → ℚ) (s : State) :
    (controller dim noise s).1.controlDecimation = (s.controlDecimation + 1) % SIZE_MODULUS := by
  by_cases h50 : (s.controlDecimation + 1) % SIZE_MODULUS % 50 = 0
  · rw [controller_retarget dim noise s h50]
  · by_cases h : s.controlDecimation % 2500 = 0
    · rw [controller_reset dim noise s h]
    · rw [controller_idle dim noise s h h50]

theorem controller_generator (dim : Nat) (noise : Nat → ℚ) (s : State) :
    (controller dim noise s).1.generator =
      if (s.controlDecimation + 1) % SIZE_MODULUS % 50 = 0 then s.generator + dim
      else s.generator := by
  by_cases h50 : (s.controlDecimation + 1) % SIZE_MODULUS % 50 = 0
  · rw [controller_retarget dim noise s h50]; simp [h50, addNoise_snd]
  · by_cases h : s.controlDecimation % 2500 = 0
    · rw [controller_reset dim noise s h]; simp [h50]
    · rw [controller_idle dim noise s h h50]; simp [h50]

theorem controller_time (dim : Nat) (noise : Nat → ℚ) (s : State) :
    (controller dim noise s).1.time =
      if s.controlDecimation % 2500 = 0 then 0 else s.time + timeStep := by
  by_cases h : s.controlDecimation % 2500 = 0
  · rw [controller_reset dim noise s h]; simp [h]
  · by_cases h50 : (s.controlDecimation + 1) % SIZE_MODULUS % 50 = 0
    · rw [controller_retarget dim noise s h50]; simp [h]
    · rw [controller_idle dim noise s h h50]; simp [h]

theorem controller_gui (dim : Nat) (noise : Nat → ℚ) (s : State) :
    (controller dim noise s).1.gui =
      if s.controlDecimation % 2500 = 0 then anymal_gui.clear s.gui
      else if (s.controlDecimation + 1) % SIZE_MODULUS % 50 = 0 then
        anymal_gui.push_back s.gui (s.time + timeStep)
          (tail 12 s.anymal.generalizedVelocity) (tail 12 s.anymal.generalizedForce)
      else s.gui := by
  by_cases h : s.controlDecimation % 2500 = 0
  · rw [controller_reset dim noise s h]; simp [h]
  · by_cases h50 : (s.controlDecimation + 1) % SIZE_MODULUS % 50 = 0
    · rw [controller_retarget dim noise s h50]; simp [h, h50]
    · rw [controller_idle dim noise s h h50]; simp [h, h50]

theorem controller_generalizedCoordinate (dim : Nat) (noise : Nat → ℚ) (s : State) :
    (controller dim noise s).1.anymal.generalizedCoordinate =
      if s.controlDecimation % 2500 = 0 then resetPose
      else s.anymal.generalizedCoordinate := by
  by_cases h : s.controlDecimation % 2500 = 0
  · rw [controller_reset dim noise s h]; simp [h, Robot.setGeneralizedCoordinate]
  · by_cases h50 : (s.controlDecimation + 1) % SIZE_MODULUS % 50 = 0
    · rw [controller_retarget dim noise s h50]; simp [h, Robot.setPdTarget]
    · rw [controller_idle dim noise s h h50]; simp [h]

theorem controller_issuedTargets (dim : Nat) (noise : Nat → ℚ) (s : State) :
    issuedTargets (controller dim noise s).2 =
      if (s.controlDecimation + 1) % SIZE_MODULUS % 50 = 0 then
        [((addNoise noise dim referencePose s.generator).1, setZero 18)]
      else [] := by
  by_cases h50 : (s.controlDecimation + 1) % SIZE_MODULUS % 50 = 0
  · rw [controller_retarget dim noise s h50]; simp [h50, issuedTargets, Call.target?]
  · by_cases h : s.controlDecimation % 2500 = 0
    · rw [controller_reset dim noise s h]; simp [h50, issuedTargets, Call.target?]
    · rw [controller_idle dim noise s h h50]; simp [h50, issuedTargets]

theorem controller_pushedSamples (dim : Nat) (noise : Nat → ℚ) (s : State) :
    pushedSamples (controller dim noise s).2 =
      if (s.controlDecimation + 1) % SIZE_MODULUS % 50 = 0 then
        [(s.time + timeStep, tail 12 s.anymal.generalizedVelocity,
          tail 12 s.anymal.generalizedForce)]
      else [] := by
  by_cases h50 : (s.controlDecimation + 1) % SIZE_MODULUS % 50 = 0
  · rw [controller_retarget dim noise s h50]; simp [h50, pushedSamples, Call.sample?]
  · by_cases h : s.controlDecimation % 2500 = 0
    · rw [controller_reset dim noise s h]; simp [h50, pushedSamples, Call.sample?]
    · rw [controller_idle dim noise s h h50]; simp [h50, pushedSamples]

theorem controller_clearedTelemetry (dim : Nat) (noise : Nat → ℚ) (s : State) :
    clearedTelemetry (controller dim noise s).2 = decide (s.controlDecimation % 2500 = 0) := by
  by_cases h : s.controlDecimation % 2500 = 0
  · rw [controller_reset dim noise s h]; simp [h, clearedTelemetry, Call.isClear]
  · by_cases h50 : (s.controlDecimation + 1) % SIZE_MODULUS % 50 = 0
    · rw [controller_retarget dim noise s h50]; simp [h, clearedTelemetry, Call.isClear]
    · rw [controller_idle dim noise s h h50]; simp [h, clearedTelemetry]

theorem controller_wroteCoordinate (dim : Nat) (noise : Nat → ℚ) (s : State) :
    wroteCoordinate (controller dim noise s).2 = decide (s.controlDecimation % 2500 = 0) := by
  by_cases h : s.controlDecimation % 2500 = 0
  · rw [controller_reset dim noise s h]
    simp [h, wroteCoordinate, Call.isSetGeneralizedCoordinate]
  · by_cases h50 : (s.controlDecimation + 1) % SIZE_MODULUS % 50 = 0
    · rw [controller_retarget dim noise s h50]
      simp [h, wroteCoordinate, Call.isSetGeneralizedCoordinate]
    · rw [controller_idle dim noise s h h50]; simp [h, wroteCoordinate]

/-! ## Runs -/

theorem run_succ (dim : Nat) (noise : Nat → ℚ) (physics : Nat → Robot → Robot) (n : Nat)
    (s : State) :
    run dim noise physics (n + 1) s =
      { (controller dim noise (run dim noise physics n s)).1 with
        anymal := physics n (controller dim noise (run dim noise physics n s)).1.anymal } :=
  rfl

theorem run_controlDecimation (dim : Nat) (noise : Nat → ℚ) (physics : Nat → Robot → Robot)
    (s : State) (n : Nat) (h : s.controlDecimation + n < SIZE_MODULUS) :
    (run dim noise physics n s).controlDecimation = s.controlDecimation + n := by
  induction n with
  | zero => rfl
  | succ n ih =>
    have ih1 := ih (by omega)
    rw [run_succ]
    show (controller dim noise (run dim noise physics n s)).1.controlDecimation = _
    rw [controller_controlDecimation, ih1, Nat.mod_eq_of_lt (by omega)]
    omega

theorem run_initial_controlDecimation (dim : Nat) (noise : Nat → ℚ)
    (physics : Nat → Robot → Robot) (r : Robot) (n : Nat) (h : n < SIZE_MODULUS) :
    (run dim noise physics n (initialState r)).controlDecimation = n := by
  have := run_controlDecimation dim noise physics (initialState r) n
    (by simpa [initialState] using h)
  simpa [initialState] using this

/-- The recorded time of the sample of rank `j` after a reset grows with `j`. -/
theorem sampleTime_strictMono :
    StrictMono fun j : Nat => ((50 * j + 49 : Nat) : ℚ) * timeStep := by
  intro a b hab
  have hpos : (0 : ℚ) < timeStep := by norm_num [timeStep]
  have : ((50 * a + 49 : Nat) : ℚ) < ((50 * b + 49 : Nat) : ℚ) := by
    exact_mod_cast (by omega : 50 * a + 49 < 50 * b + 49)
  exact mul_lt_mul_of_pos_right this hpos

/-- The state after `n + 1` invocations from the initial state, while the
counter has not wrapped: the elapsed time counts the invocations since the last
reset, and the buffers hold one sample per 50 invocations since that reset. -/
theorem run_initial_invariant (dim : Nat) (noise : Nat → ℚ) (physics : Nat → Robot → Robot)
    (r : Robot) (n : Nat) (h : n + 1 < SIZE_MODULUS) :
    (run dim noise physics (n + 1) (initialState r)).time = ((n % 2500 : Nat) : ℚ) * timeStep ∧
    (run dim noise physics (n + 1) (initialState r)).gui.time =
      (List.range ((n % 2500 + 1) / 50)).map
        (fun j : Nat => ((50 * j + 49 : Nat) : ℚ) * timeStep) ∧
    (run dim noise physics (n + 1) (initialState r)).gui.jointSpeed.length =
      (n % 2500 + 1) / 50 ∧
    (run dim noise physics (n + 1) (initialState r)).gui.jointTorque.length =
      (n % 2500 + 1) / 50 := by
  induction n with
  | zero =>
    rw [run_succ]
    show (controller dim noise (initialState r)).1.time = _ ∧
      (controller dim noise (initialState r)).1.gui.time = _ ∧
      (controller dim noise (initialState r)).1.gui.jointSpeed.length = _ ∧
      (controller dim noise (initialState r)).1.gui.jointTorque.length = _
    rw [controller_time, controller_gui]
    simp [initialState, anymal_gui.clear]
  | succ n ih =>
    obtain ⟨ht, hg, hs, hq⟩ := ih (by omega)
    have hc := run_initial_controlDecimation dim noise physics r (n + 1) (by omega)
    rw [run_succ]
    show (controller dim noise (run dim noise physics (n + 1) (initialState r))).1.time = _ ∧
      (controller dim noise (run dim noise physics (n + 1) (initialState r))).1.gui.time = _ ∧
      (controller dim noise
        (run dim noise physics (n + 1) (initialState r))).1.gui.jointSpeed.length = _ ∧
      (controller dim noise
        (run dim noise physics (n + 1) (initialState r))).1.gui.jointTorque.length = _
    rw [controller_time, controller_gui, hc, Nat.mod_eq_of_lt (by omega : n + 1 + 1 < SIZE_MODULUS)]
    by_cases h0 : (n + 1) % 2500 = 0
    · have hl : ((n + 1) % 2500 + 1) / 50 = 0 := by omega
      simp [h0, hl, anymal_gui.clear]
    · have hm : (n + 1) % 2500 = n % 2500 + 1 := by omega
      have htime : (run dim noise physics (n + 1) (initialState r)).time + timeStep =
          (((n + 1) % 2500 : Nat) : ℚ) * timeStep := by
        rw [ht, hm]; push_cast; ring
      by_cases h50 : (n + 1 + 1) % 50 = 0
      · have hl : ((n + 1) % 2500 + 1) / 50 = (n % 2500 + 1) / 50 + 1 := by omega
        have hv : (n + 1) % 2500 = 50 * ((n % 2500 + 1) / 50) + 49 := by omega
        simp only [h0, h50, if_true, if_false, htime, hl, anymal_gui.push_back, hg,
          List.range_succ, List.map_append, List.map_cons, List.map_nil, List.length_append,
          List.length_cons, List.length_nil, hs, hq, true_and, and_true]
        rw [← hv]
      · have hl : ((n + 1) % 2500 + 1) / 50 = (n % 2500 + 1) / 50 := by omega
        simp only [h0, h50, if_false, htime, hl, hg, hs, hq, and_self]

theorem callsAt_clearedTelemetry (dim : Nat) (noise : Nat → ℚ) (physics : Nat → Robot → Robot)
    (r : Robot) (i : Nat) (h : i < SIZE_MODULUS) :
    clearedTelemetry (callsAt dim noise physics (initialState r) i) = decide (i % 2500 = 0) := by
  rw [callsAt, controller_clearedTelemetry, run_initial_controlDecimation dim noise physics r i h]

theorem resetCount_succ (dim : Nat) (noise : Nat → ℚ) (physics : Nat → Robot → Robot)
    (r : Robot) (n : Nat) (h : n < SIZE_MODULUS) :
    resetCount dim noise physics (initialState r) (n + 1) =
      resetCount dim noise physics (initialState r) n + if n % 2500 = 0 then 1 else 0 := by
  simp only [resetCount, List.range_succ, List.filter_append, List.length_append]
  by_cases h0 : n % 2500 = 0
  · simp [List.filter_cons, callsAt_clearedTelemetry dim noise physics r n h, h0]
  · simp [List.filter_cons, callsAt_clearedTelemetry dim noise physics r n h, h0]

/-- Resets happen at invocations 0, 2500, 5000, ... of a run from the initial
state. -/
theorem resetCount_eq (dim : Nat) (noise : Nat → ℚ) (physics : Nat → Robot → Robot)
    (r : Robot) (n : Nat) (h : n ≤ SIZE_MODULUS) :
    resetCount dim noise physics (initialState r) n = (n + 2499) / 2500 := by
  induction n with
  | zero => simp [resetCount]
  | succ n ih =>
    rw [resetCount_succ dim noise physics r n (by omega), ih (by omega)]
    split_ifs <;> omega

/-- The counter and the generator evolve without reading the robot. -/
theorem run_control_independent (dim : Nat) (noise : Nat → ℚ)
    (physics1 physics2 : Nat → Robot → Robot) (s1 s2 : State)
    (hc : s1.controlDecimation = s2.controlDecimation) (hg : s1.generator = s2.generator)
    (n : Nat) :
    (run dim noise physics1 n s1).controlDecimation =
        (run dim noise physics2 n s2).controlDecimation ∧
      (run dim noise physics1 n s1).generator = (run dim noise physics2 n s2).generator := by
  induction n with
  | zero => exact ⟨hc, hg⟩
  | succ n ih =>
    rw [run_succ, run_succ]
    show (controller dim noise (run dim noise physics1 n s1)).1.controlDecimation =
        (controller dim noise (run dim noise physics2 n s2)).1.controlDecimation ∧
      (controller dim noise (run dim noise physics1 n s1)).1.generator =
        (controller dim noise (run dim noise physics2 n s2)).1.generator
    rw [controller_controlDecimation, controller_controlDecimation, controller_generator,
      controller_generator, ih.1, ih.2]
    exact ⟨rfl, rfl⟩

theorem callsAt_issuedTargets_independent (dim : Nat) (noise : Nat → ℚ)
    (physics1 physics2 : Nat → Robot → Robot) (s1 s2 : State)
    (hc : s1.controlDecimation = s2.controlDecimation) (hg : s1.generator = s2.generator)
    (i : Nat) :
    issuedTargets (callsAt dim noise physics1 s1 i) =
      issuedTargets (callsAt dim noise physics2 s2 i) := by
  have h := run_control_independent dim noise physics1 physics2 s1 s2 hc hg i
  rw [callsAt, callsAt, controller_issuedTargets, controller_issuedTargets, h.1, h.2]

/-! ## The reset tick -/

/-- C1. Reset tick outcome: an invocation entered with a counter that is a
multiple of 2500 leaves, whatever the noise stream, the generalized coordinate
at the 19-entry reset pose, the telemetry buffers empty and the elapsed time at
0; the calls it makes are `setGeneralizedCoordinate` and `clear` and nothing
else, so it issues no PD target, pushes no sample and consumes no draw. -/
theorem reset_tick_outcome (dim : Nat) (noise : Nat → ℚ) (s : State)
    (h : s.controlDecimation % 2500 = 0) :
    (controller dim noise s).1.anymal.generalizedCoordinate =
        [0, 0, 0.54, 1, 0, 0, 0, 0.03, 0.4, -0.8, -0.03, 0.4, -0.8, 0.03, -0.4, 0.8,
          -0.03, -0.4, 0.8] ∧
      (controller dim noise s).1.anymal.generalizedCoordinate.length = 19 ∧
      (controller dim noise s).1.gui = { jointSpeed := [], jointTorque := [], time := [] } ∧
      (controller dim noise s).1.time = 0 ∧
      (controller dim noise s).2 = [Call.setGeneralizedCoordinate resetPose, Call.clear] ∧
      issuedTargets (controller dim noise s).2 = [] ∧
      pushedSamples (controller dim noise s).2 = [] ∧
      (controller dim noise s).1.anymal.pTarget = s.anymal.pTarget ∧
      (controller dim noise s).1.anymal.dTarget = s.anymal.dTarget ∧
      (controller dim noise s).1.generator = s.generator := by
  rw [controller_reset dim noise s h]
  refine ⟨?_, ?_, rfl, rfl, rfl, ?_, ?_, rfl, rfl, rfl⟩
  · norm_num [Robot.setGeneralizedCoordinate, resetPose]
  · simp [Robot.setGeneralizedCoordinate, resetPose]
  · simp [issuedTargets, Call.target?]
  · simp [pushedSamples, Call.sample?]

/-- C1, witness: the first invocation of a run, entered with counter 0. -/
theorem reset_tick_outcome_witness :
    (initialState bootRobot).controlDecimation % 2500 = 0 ∧
      (controller 19 (fun _ => 0) (initialState bootRobot)).1.time = 0 ∧
      (controller 19 (fun _ => 0) (initialState bootRobot)).2 =
        [Call.setGeneralizedCoordinate resetPose, Call.clear] ∧
      issuedTargets (controller 19 (fun _ => 0) (initialState bootRobot)).2 = [] ∧
      pushedSamples (controller 19 (fun _ => 0) (initialState bootRobot)).2 = [] :=
  have w := reset_tick_outcome 19 (fun _ => 0) (initialState bootRobot) (by decide)
  ⟨by decide, w.2.2.2.1, w.2.2.2.2.1, w.2.2.2.2.2.1, w.2.2.2.2.2.2.1⟩

/-- C5. Telemetry is cleared exactly when the pose is reset: an invocation
clears the buffers if and only if it writes the generalized coordinate, and
both happen if and only if the counter at entry is a multiple of 2500, the
coordinate written being the reset pose. On every other invocation the
coordinate is not written, the elapsed time is the old one plus the timestep,
and the buffers are the old ones, unchanged or with one sample appended. -/
theorem telemetry_cleared_iff_pose_reset (dim : Nat) (noise : Nat → ℚ) (s : State) :
    (clearedTelemetry (controller dim noise s).2 = true ↔
        wroteCoordinate (controller dim noise s).2 = true) ∧
      (clearedTelemetry (controller dim noise s).2 = true ↔ s.controlDecimation % 2500 = 0) ∧
      (if s.controlDecimation % 2500 = 0 then
        (controller dim noise s).2 = [Call.setGeneralizedCoordinate resetPose, Call.clear] ∧
          (controller dim noise s).1.anymal.generalizedCoordinate = resetPose ∧
          (controller dim noise s).1.gui = { jointSpeed := [], jointTorque := [], time := [] }
      else
        wroteCoordinate (controller dim noise s).2 = false ∧
          clearedTelemetry (controller dim noise s).2 = false ∧
          (controller dim noise s).1.anymal.generalizedCoordinate =
            s.anymal.generalizedCoordinate ∧
          (controller dim noise s).1.time = s.time + timeStep ∧
          (((controller dim noise s).1.gui = s.gui ∧
              pushedSamples (controller dim noise s).2 = []) ∨
            ∃ t sp tq, (controller dim noise s).1.gui = anymal_gui.push_back s.gui t sp tq ∧
              pushedSamples (controller dim noise s).2 = [(t, sp, tq)])) := by
  refine ⟨?_, ?_, ?_⟩
  · rw [controller_clearedTelemetry, controller_wroteCoordinate]
  · rw [controller_clearedTelemetry]; simp
  · by_cases h : s.controlDecimation % 2500 = 0
    · rw [if_pos h, controller_reset dim noise s h]
      exact ⟨rfl, rfl, rfl⟩
    · rw [if_neg h, controller_wroteCoordinate, controller_clearedTelemetry,
        controller_generalizedCoordinate, controller_time, controller_gui,
        controller_pushedSamples]
      refine ⟨by simp [h], by simp [h], by simp [h], by simp [h], ?_⟩
      by_cases h50 : (s.controlDecimation + 1) % SIZE_MODULUS % 50 = 0
      · exact Or.inr ⟨s.time + timeStep, tail 12 s.anymal.generalizedVelocity,
          tail 12 s.anymal.generalizedForce, by simp [h, h50], by simp [h50]⟩
      · exact Or.inl ⟨by simp [h, h50], by simp [h50]⟩

/-! ## The content of a re-target -/

theorem tail_length (n : Nat) (v : List ℚ) (h : n ≤ v.length) : (tail n v).length = n := by
  simp [tail]; omega

theorem tail_getElem? (n : Nat) (v : List ℚ) (i : Nat) :
    (tail n v)[i]? = v[v.length - n + i]? := by
  simp [tail]

/-- An invocation that issues a target has a counter whose successor is a
multiple of 50. -/
theorem retargets_of_issuedTargets_ne_nil (dim : Nat) (noise : Nat → ℚ) (s : State)
    (h : issuedTargets (controller dim noise s).2 ≠ []) :
    (s.controlDecimation + 1) % SIZE_MODULUS % 50 = 0 := by
  by_contra h50
  exact h (by rw [controller_issuedTargets, if_neg h50])

/-- C7. Content of a re-target, for a robot of generalized-coordinate dimension
19: the invocation consumes exactly 19 draws; the position target it issues has
19 entries, entry `k` being entry `k` of the reference pose plus the `k`-th of
these draws; the velocity target is 18 zeros; the one sample it appends is the
current elapsed time, the last 12 entries of the generalized velocity and the
last 12 entries of the generalized force. -/
theorem retarget_content (dim : Nat) (noise : Nat → ℚ) (s : State) (hdim : dim = 19)
    (hre : issuedTargets (controller dim noise s).2 ≠ []) :
    referencePose =
        [0, 0, 0, 0, 0, 0, 0, 0.03, 0.3, -0.6, -0.03, 0.3, -0.6, 0.03, -0.3, 0.6,
          -0.03, -0.3, 0.6] ∧
      (controller dim noise s).1.generator = s.generator + 19 ∧
      (∃ p : List ℚ,
        issuedTargets (controller dim noise s).2 = [(p, List.replicate 18 0)] ∧
          (controller dim noise s).1.anymal.pTarget = p ∧
          (controller dim noise s).1.anymal.dTarget = List.replicate 18 0 ∧
          p.length = 19 ∧
          ∀ k, k < 19 → p[k]? = referencePose[k]?.map fun x => x + noise (s.generator + k)) ∧
      (controller dim noise s).1.time = s.time + timeStep ∧
      pushedSamples (controller dim noise s).2 =
        [((controller dim noise s).1.time, tail 12 s.anymal.generalizedVelocity,
          tail 12 s.anymal.generalizedForce)] ∧
      (controller dim noise s).1.gui =
        { jointSpeed := s.gui.jointSpeed ++ [tail 12 s.anymal.generalizedVelocity],
          jointTorque := s.gui.jointTorque ++ [tail 12 s.anymal.generalizedForce],
          time := s.gui.time ++ [(controller dim noise s).1.time] } ∧
      ∀ v : List ℚ, 12 ≤ v.length →
        (tail 12 v).length = 12 ∧ ∀ i, (tail 12 v)[i]? = v[v.length - 12 + i]? := by
  have h50 := retargets_of_issuedTargets_ne_nil dim noise s hre
  subst hdim
  rw [controller_retarget 19 noise s h50]
  refine ⟨rfl, by simp [addNoise_snd], ⟨_, rfl, rfl, rfl, ?_, ?_⟩, rfl, ?_, rfl, ?_⟩
  · rw [addNoise_length]; simp [referencePose]
  · intro k hk
    rw [addNoise_getElem?, if_pos hk]
  · simp [pushedSamples, Call.sample?]
  · intro v hv
    exact ⟨tail_length 12 v hv, tail_getElem? 12 v⟩

/-- C7, witness: the 50th invocation of a run from the initial state. -/
theorem retarget_content_witness :
    issuedTargets (controller 19 (fun _ => 0)
        (run 19 (fun _ => 0) (fun _ r => r) 49 (initialState bootRobot))).2 ≠ [] ∧
      (controller 19 (fun _ => 0)
          (run 19 (fun _ => 0) (fun _ r => r) 49 (initialState bootRobot))).1.generator =
        (run 19 (fun _ => 0) (fun _ r => r) 49 (initialState bootRobot)).generator + 19 :=
  have hre : issuedTargets (controller 19 (fun _ => 0)
      (run 19 (fun _ => 0) (fun _ r => r) 49 (initialState bootRobot))).2 ≠ [] := by
    rw [controller_issuedTargets, run_initial_controlDecimation _ _ _ _ 49 (by decide)]
    decide
  ⟨hre, (retarget_content 19 (fun _ => 0) _ rfl hre).2.1⟩

/-- C6, as the code has it. The draws of a re-target also reach the seven base
entries: the entry of the issued position target at an index `k` in 0..6 is the
reference entry, 0, plus the `k`-th draw of the invocation, so it equals the
reference entry exactly when that draw is 0; all 19 entries are the reference
entry plus a draw. -/
theorem base_entries_carry_noise (dim : Nat) (noise : Nat → ℚ) (s : State) (hdim : dim = 19)
    (p v : List ℚ) (hp : (p, v) ∈ issuedTargets (controller dim noise s).2)
    (k : Nat) (hk : k < 7) :
    referencePose[k]? = some 0 ∧
      p[k]? = some (0 + noise (s.generator + k)) ∧
      (p[k]? = referencePose[k]? ↔ noise (s.generator + k) = 0) ∧
      ∀ m, m < 19 → p[m]? = referencePose[m]?.map fun x => x + noise (s.generator + m) := by
  have h50 : (s.controlDecimation + 1) % SIZE_MODULUS % 50 = 0 :=
    retargets_of_issuedTargets_ne_nil dim noise s (List.ne_nil_of_mem hp)
  subst hdim
  rw [controller_issuedTargets, if_pos h50, List.mem_singleton] at hp
  have hpe : p = (addNoise noise 19 referencePose s.generator).1 := congrArg Prod.fst hp
  have hr : referencePose[k]? = some 0 := by
    have : k = 0 ∨ k = 1 ∨ k = 2 ∨ k = 3 ∨ k = 4 ∨ k = 5 ∨ k = 6 := by omega
    rcases this with h | h | h | h | h | h | h <;> subst h <;> simp [referencePose]
  have hpk : p[k]? = some (0 + noise (s.generator + k)) := by
    rw [hpe, addNoise_getElem?, if_pos (by omega), hr]; rfl
  refine ⟨hr, hpk, ?_, ?_⟩
  · rw [hpk, hr]
    simp
  · intro m hm
    rw [hpe, addNoise_getElem?, if_pos hm]

/-- C6, witness: the 50th invocation of a run from the initial state, with every
draw equal to 1. -/
theorem base_entries_carry_noise_witness :
    ((addNoise (fun _ => 1) 19 referencePose
          (run 19 (fun _ => 1) (fun _ r => r) 49 (initialState bootRobot)).generator).1,
        setZero 18) ∈
        issuedTargets (controller 19 (fun _ => 1)
          (run 19 (fun _ => 1) (fun _ r => r) 49 (initialState bootRobot))).2 ∧
      (addNoise (fun _ => 1) 19 referencePose
          (run 19 (fun _ => 1) (fun _ r => r) 49 (initialState bootRobot)).generator).1[0]? =
        some (0 + 1) :=
  have hp : ((addNoise (fun _ => 1) 19 referencePose
        (run 19 (fun _ => 1) (fun _ r => r) 49 (initialState bootRobot)).generator).1,
      setZero 18) ∈
      issuedTargets (controller 19 (fun _ => 1)
        (run 19 (fun _ => 1) (fun _ r => r) 49 (initialState bootRobot))).2 := by
    rw [controller_issuedTargets, run_initial_controlDecimation _ _ _ _ 49 (by decide),
      if_pos (by decide)]
    exact List.mem_singleton.mpr rfl
  ⟨hp, (base_entries_carry_noise 19 (fun _ => 1) _ rfl _ _ hp 0 (by decide)).2.1⟩

/-- C6, counterexample. With every draw equal to 1, the 50th invocation of a
run from the initial state issues a position target whose entry 0 is 1, while
entry 0 of the reference pose is 0. -/
theorem base_entries_unperturbed_counterexample :
    (issuedTargets (callsAt 19 (fun _ => 1) (fun _ r => r) (initialState bootRobot) 49)).map
        (fun t => t.1[0]?) = [some 1] ∧
      referencePose[0]? = some 0 := by
  constructor
  · rw [callsAt, controller_issuedTargets,
      run_initial_controlDecimation _ _ _ _ 49 (by decide), if_pos (by decide)]
    simp [addNoise_getElem?, referencePose]
  · simp [referencePose]

/-! ## The cadence of the re-target -/

/-- C2, as the code has it. The 50-step test reads the counter after its
increment: while the increment does not wrap, an invocation entered with
counter `c` issues one PD target and pushes one sample if and only if `c + 1`
is a multiple of 50; when `c + 1` is not a multiple of 50 it issues no target
and pushes no sample, and for `c = 49` it re-targets. -/
theorem retarget_cadence_amended (dim : Nat) (noise : Nat → ℚ) (s : State)
    (hs : s.controlDecimation + 1 < SIZE_MODULUS) :
    (((issuedTargets (controller dim noise s).2).length = 1 ∧
          (pushedSamples (controller dim noise s).2).length = 1) ↔
        (s.controlDecimation + 1) % 50 = 0) ∧
      ((s.controlDecimation + 1) % 50 ≠ 0 →
        issuedTargets (controller dim noise s).2 = [] ∧
          pushedSamples (controller dim noise s).2 = []) ∧
      (s.controlDecimation = 49 →
        (issuedTargets (controller dim noise s).2).length = 1 ∧
          (pushedSamples (controller dim noise s).2).length = 1) := by
  rw [controller_issuedTargets, controller_pushedSamples, Nat.mod_eq_of_lt hs]
  refine ⟨?_, ?_, ?_⟩
  · by_cases h50 : (s.controlDecimation + 1) % 50 = 0 <;> simp [h50]
  · intro h50; simp [h50]
  · intro h49; simp [h49]

/-- C2, witness: the 50th invocation of a run from the initial state, entered
with counter 49. -/
theorem retarget_cadence_amended_witness :
    (run 19 (fun _ => 0) (fun _ r => r) 49 (initialState bootRobot)).controlDecimation + 1 <
        SIZE_MODULUS ∧
      (issuedTargets (controller 19 (fun _ => 0)
        (run 19 (fun _ => 0) (fun _ r => r) 49 (initialState bootRobot))).2).length = 1 :=
  have hc := run_initial_controlDecimation 19 (fun _ => 0) (fun _ r => r) bootRobot 49
    (by decide)
  have hs : (run 19 (fun _ => 0) (fun _ r => r) 49 (initialState bootRobot)).controlDecimation
      + 1 < SIZE_MODULUS := by rw [hc]; decide
  ⟨hs, ((retarget_cadence_amended 19 (fun _ => 0) _ hs).2.2 hc).1⟩

/-- C2, counterexample. In a run from the initial state the invocation entered
with counter 50, a positive multiple of 50 that is not a multiple of 2500,
issues no target and pushes no sample, and the invocation entered with counter
49, not a multiple of 50, issues a target and pushes a sample. -/
theorem retarget_cadence_counterexample :
    (run 19 (fun _ => 0) (fun _ r => r) 50 (initialState bootRobot)).controlDecimation = 50 ∧
      issuedTargets (callsAt 19 (fun _ => 0) (fun _ r => r) (initialState bootRobot) 50) = [] ∧
      pushedSamples (callsAt 19 (fun _ => 0) (fun _ r => r) (initialState bootRobot) 50) = [] ∧
      (run 19 (fun _ => 0) (fun _ r => r) 49 (initialState bootRobot)).controlDecimation = 49 ∧
      (issuedTargets
        (callsAt 19 (fun _ => 0) (fun _ r => r) (initialState bootRobot) 49)).length = 1 ∧
      (pushedSamples
        (callsAt 19 (fun _ => 0) (fun _ r => r) (initialState bootRobot) 49)).length = 1 := by
  have h50 := run_initial_controlDecimation 19 (fun _ => 0) (fun _ r => r) bootRobot 50
    (by decide)
  have h49 := run_initial_controlDecimation 19 (fun _ => 0) (fun _ r => r) bootRobot 49
    (by decide)
  refine ⟨h50, ?_, ?_, h49, ?_, ?_⟩
  · rw [callsAt, controller_issuedTargets, h50, if_neg (by decide)]
  · rw [callsAt, controller_pushedSamples, h50, if_neg (by decide)]
  · rw [callsAt, controller_issuedTargets, h49, if_pos (by decide)]; rfl
  · rw [callsAt, controller_pushedSamples, h49, if_pos (by decide)]; rfl

/-! ## The elapsed time a sample records -/

theorem toUnits_fromUnits (n : Nat) : toUnits (fromUnits n) = n := by
  simp [toUnits, fromUnits]

theorem fromUnits_add (a b : Nat) : fromUnits a + fromUnits b = fromUnits (a + b) := by
  simp [fromUnits]; ring

theorem doubleAdd_fromUnits (a b : Nat) :
    doubleAdd (fromUnits a) (fromUnits b) = fromUnits (roundDouble (a + b)) := by
  rw [doubleAdd, fromUnits_add, toUnits_fromUnits]

theorem timeStepDouble_eq : timeStepDouble = fromUnits 5764607523034235 := by
  have h : ⌊timeStep * 2 ^ 61 + 1 / 2⌋₊ = 5764607523034235 := by
    rw [Nat.floor_eq_iff (by norm_num [timeStep])]; norm_num [timeStep]
  rw [timeStepDouble, h]

theorem doubleSum_eq (k : Nat) : doubleSum k = fromUnits (doubleSumUnits k) := by
  induction k with
  | zero => simp [doubleSum, doubleSumUnits, fromUnits]
  | succ k ih =>
    have h1 : doubleSum (k + 1) = doubleAdd (doubleSum k) timeStepDouble := by
      simp only [doubleSum, Function.iterate_succ_apply']
    have h2 : doubleSumUnits (k + 1) = roundDouble (doubleSumUnits k + 5764607523034235) := by
      simp only [doubleSumUnits, Function.iterate_succ_apply']
    rw [h1, h2, ih, timeStepDouble_eq, doubleAdd_fromUnits]

set_option maxRecDepth 100000 in
theorem doubleSumUnits_49 : doubleSumUnits 49 = 282465768628677664 := by
  decide

/-- The callback with the rounded sum is the callback with the exact sum, run
from the state whose elapsed time is the rounded sum less one exact timestep. -/
theorem controllerDouble_eq (dim : Nat) (noise : Nat → ℚ) (s : State) :
    controllerDouble dim noise s =
      controller dim noise { s with time := doubleAdd s.time timeStepDouble - timeStep } := by
  simp [controllerDouble, controller, advanceTimeDouble, advanceTime]

theorem controllerDouble_controlDecimation (dim : Nat) (noise : Nat → ℚ) (s : State) :
    (controllerDouble dim noise s).1.controlDecimation =
      (s.controlDecimation + 1) % SIZE_MODULUS := by
  rw [controllerDouble_eq, controller_controlDecimation]

theorem controllerDouble_time (dim : Nat) (noise : Nat → ℚ) (s : State) :
    (controllerDouble dim noise s).1.time =
      if s.controlDecimation % 2500 = 0 then 0 else doubleAdd s.time timeStepDouble := by
  rw [controllerDouble_eq, controller_time]
  simp

theorem controllerDouble_issuedTargets (dim : Nat) (noise : Nat → ℚ) (s : State) :
    issuedTargets (controllerDouble dim noise s).2 = issuedTargets (controller dim noise s).2 := by
  rw [controllerDouble_eq, controller_issuedTargets, controller_issuedTargets]

theorem controllerDouble_pushedSamples (dim : Nat) (noise : Nat → ℚ) (s : State) :
    pushedSamples (controllerDouble dim noise s).2 =
      if (s.controlDecimation + 1) % SIZE_MODULUS % 50 = 0 then
        [(doubleAdd s.time timeStepDouble, tail 12 s.anymal.generalizedVelocity,
          tail 12 s.anymal.generalizedForce)]
      else [] := by
  rw [controllerDouble_eq, controller_pushedSamples]
  simp

theorem runDouble_succ (dim : Nat) (noise : Nat → ℚ) (physics : Nat → Robot → Robot) (n : Nat)
    (s : State) :
    runDouble dim noise physics (n + 1) s =
      { (controllerDouble dim noise (runDouble dim noise physics n s)).1 with
        anymal := physics n (controllerDouble dim noise (runDouble dim noise physics n s)).1.anymal } :=
  rfl

theorem runDouble_initial_controlDecimation (dim : Nat) (noise : Nat → ℚ)
    (physics : Nat → Robot → Robot) (r : Robot) (n : Nat) (h : n < SIZE_MODULUS) :
    (runDouble dim noise physics n (initialState r)).controlDecimation = n := by
  induction n with
  | zero => rfl
  | succ n ih =>
    rw [runDouble_succ]
    show (controllerDouble dim noise
      (runDouble dim noise physics n (initialState r))).1.controlDecimation = _
    rw [controllerDouble_controlDecimation, ih (by omega), Nat.mod_eq_of_lt h]

/-- The elapsed time after `n + 1` invocations from the initial state, in the
arithmetic of `double`: one rounded sum for each invocation since the last
reset. -/
theorem runDouble_initial_time (dim : Nat) (noise : Nat → ℚ) (physics : Nat → Robot → Robot)
    (r : Robot) (n : Nat) (h : n + 1 < SIZE_MODULUS) :
    (runDouble dim noise physics (n + 1) (initialState r)).time = doubleSum (n % 2500) := by
  induction n with
  | zero =>
    rw [runDouble_succ]
    show (controllerDouble dim noise (initialState r)).1.time = _
    rw [controllerDouble_time]
    simp [initialState, doubleSum]
  | succ n ih =>
    have ih1 := ih (by omega)
    have hc := runDouble_initial_controlDecimation dim noise physics r (n + 1) (by omega)
    rw [runDouble_succ]
    show (controllerDouble dim noise
      (runDouble dim noise physics (n + 1) (initialState r))).1.time = _
    rw [controllerDouble_time, hc, ih1]
    by_cases h0 : (n + 1) % 2500 = 0
    · simp [h0, doubleSum]
    · have hm : (n + 1) % 2500 = n % 2500 + 1 := by omega
      rw [if_neg h0, hm]
      simp only [doubleSum, Function.iterate_succ_apply']

/-- The samples invocation `i` of a run from the initial state pushes, in the
arithmetic of `double`. -/
theorem callsAtDouble_pushedSamples (dim : Nat) (noise : Nat → ℚ)
    (physics : Nat → Robot → Robot) (r : Robot) (i : Nat) (hi : i + 1 < SIZE_MODULUS) :
    pushedSamples (callsAtDouble dim noise physics (initialState r) i) =
      if (i + 1) % 50 = 0 then
        [(doubleSum (i % 2500),
          tail 12 (runDouble dim noise physics i (initialState r)).anymal.generalizedVelocity,
          tail 12 (runDouble dim noise physics i (initialState r)).anymal.generalizedForce)]
      else [] := by
  rw [callsAtDouble, controllerDouble_pushedSamples,
    runDouble_initial_controlDecimation dim noise physics r i (by omega), Nat.mod_eq_of_lt hi]
  by_cases h50 : (i + 1) % 50 = 0
  · rw [if_pos h50, if_pos h50]
    obtain ⟨j, rfl⟩ : ∃ j, i = j + 1 := ⟨i - 1, by omega⟩
    have hm : (j + 1) % 2500 = j % 2500 + 1 := by omega
    rw [runDouble_initial_time dim noise physics r j (by omega), hm]
    simp only [doubleSum, Function.iterate_succ_apply']
  · rw [if_neg h50, if_neg h50]

/-- The elapsed time at entry of invocation `i + 1` of a run from the initial
state, and the sample that invocation pushes, if any. -/
theorem callsAt_pushedSamples_time (dim : Nat) (noise : Nat → ℚ)
    (physics : Nat → Robot → Robot) (r : Robot) (i : Nat) (hi : i + 1 < SIZE_MODULUS)
    (smp : ℚ × List ℚ × List ℚ)
    (hsmp : smp ∈ pushedSamples (callsAt dim noise physics (initialState r) i)) :
    (i + 1) % 50 = 0 ∧ smp.1 = ((i % 2500 : Nat) : ℚ) * timeStep := by
  rw [callsAt, controller_pushedSamples,
    run_initial_controlDecimation dim noise physics r i (by omega), Nat.mod_eq_of_lt hi] at hsmp
  by_cases h50 : (i + 1) % 50 = 0
  · rw [if_pos h50, List.mem_singleton] at hsmp
    refine ⟨h50, ?_⟩
    obtain ⟨j, rfl⟩ : ∃ j, i = j + 1 := ⟨i - 1, by omega⟩
    have ht := (run_initial_invariant dim noise physics r j (by omega)).1
    have hm : (j + 1) % 2500 = j % 2500 + 1 := by omega
    rw [hsmp]
    show (run dim noise physics (j + 1) (initialState r)).time + timeStep = _
    rw [ht, hm]; push_cast; ring
  · rw [if_neg h50] at hsmp
    exact absurd hsmp (List.not_mem_nil _)

/-- C9, as the code has it. While the increment of the counter does not wrap,
an invocation entered with counter `c` issues a PD target, and pushes a sample,
if and only if `c + 1` is a multiple of 50. An invocation entered with a
counter of the form `2500 * m + 2499` re-targets and pushes, and the invocation
that follows it, whatever the robot has become, is a reset that empties the
buffers. In a run from the initial state invocation `i` is entered with counter
`i`, and the time of every sample it pushes is the timestep added `i mod 2500`
times to 0: in exact arithmetic that is `(i mod 2500) / 400`, the buffer of
times after the invocation entered with 49 modulo 2500 being the single entry
`49 / 400`; in the arithmetic of `double` it is the sum rounded at each of the
`i mod 2500` additions, and the cadence is the same. -/
theorem retarget_cadence_actual (dim : Nat) (noise : Nat → ℚ) (physics : Nat → Robot → Robot)
    (r : Robot) (s : State) (i : Nat)
    (hs : s.controlDecimation + 1 < SIZE_MODULUS) (hi : i + 1 < SIZE_MODULUS) :
    (issuedTargets (controller dim noise s).2 ≠ [] ↔ (s.controlDecimation + 1) % 50 = 0) ∧
      (pushedSamples (controller dim noise s).2 ≠ [] ↔ (s.controlDecimation + 1) % 50 = 0) ∧
      (s.controlDecimation % 2500 = 2499 →
        issuedTargets (controller dim noise s).2 ≠ [] ∧
          pushedSamples (controller dim noise s).2 ≠ [] ∧
          (controller dim noise s).1.gui.time ≠ [] ∧
          ∀ moved : Robot,
            clearedTelemetry
                (controller dim noise { (controller dim noise s).1 with anymal := moved }).2 =
                true ∧
              (controller dim noise { (controller dim noise s).1 with anymal := moved }).1.gui =
                { jointSpeed := [], jointTorque := [], time := [] }) ∧
      (run dim noise physics i (initialState r)).controlDecimation = i ∧
      (∀ smp ∈ pushedSamples (callsAt dim noise physics (initialState r) i),
        smp.1 = ((i % 2500 : Nat) : ℚ) * (1 / 400)) ∧
      (i % 2500 = 49 →
        (run dim noise physics (i + 1) (initialState r)).gui.time = [49 * (1 / 400)]) ∧
      issuedTargets (controllerDouble dim noise s).2 = issuedTargets (controller dim noise s).2 ∧
      (pushedSamples (controllerDouble dim noise s).2 ≠ [] ↔
        (s.controlDecimation + 1) % 50 = 0) ∧
      (runDouble dim noise physics i (initialState r)).controlDecimation = i ∧
      (pushedSamples (callsAtDouble dim noise physics (initialState r) i) ≠ [] ↔
        (i + 1) % 50 = 0) ∧
      (∀ smp ∈ pushedSamples (callsAtDouble dim noise physics (initialState r) i),
        smp.1 = doubleSum (i % 2500)) ∧
      doubleSum 0 = 0 ∧
      ∀ k, doubleSum (k + 1) = doubleAdd (doubleSum k) timeStepDouble := by
  refine ⟨?_, ?_, ?_, ?_, ?_, ?_, controllerDouble_issuedTargets dim noise s, ?_,
    runDouble_initial_controlDecimation dim noise physics r i (by omega), ?_, ?_, rfl, ?_⟩
  · rw [controller_issuedTargets, Nat.mod_eq_of_lt hs]
    by_cases h50 : (s.controlDecimation + 1) % 50 = 0 <;> simp [h50]
  · rw [controller_pushedSamples, Nat.mod_eq_of_lt hs]
    by_cases h50 : (s.controlDecimation + 1) % 50 = 0 <;> simp [h50]
  · intro h2499
    have h50 : (s.controlDecimation + 1) % SIZE_MODULUS % 50 = 0 := by
      rw [Nat.mod_eq_of_lt hs]; omega
    have hnext : ((s.controlDecimation + 1) % SIZE_MODULUS) % 2500 = 0 := by
      rw [Nat.mod_eq_of_lt hs]; omega
    refine ⟨?_, ?_, ?_, ?_⟩
    · rw [controller_issuedTargets, if_pos h50]; simp
    · rw [controller_pushedSamples, if_pos h50]; simp
    · rw [controller_retarget dim noise s h50]; simp [anymal_gui.push_back]
    · intro moved
      have hc : ({ (controller dim noise s).1 with anymal := moved } : State).controlDecimation
          % 2500 = 0 := by
        show (controller dim noise s).1.controlDecimation % 2500 = 0
        rw [controller_controlDecimation]; exact hnext
      rw [controller_clearedTelemetry, controller_gui, if_pos hc]
      exact ⟨by simp [hc], rfl⟩
  · exact run_initial_controlDecimation dim noise physics r i (by omega)
  · intro smp hsmp
    rw [(callsAt_pushedSamples_time dim noise physics r i hi smp hsmp).2, timeStep_eq]
  · intro h49
    rw [(run_initial_invariant dim noise physics r i hi).2.1, h49, timeStep_eq]
    simp [List.range_succ]
  · rw [controllerDouble_pushedSamples, Nat.mod_eq_of_lt hs]
    by_cases h50 : (s.controlDecimation + 1) % 50 = 0 <;> simp [h50]
  · rw [callsAtDouble_pushedSamples dim noise physics r i hi]
    by_cases h50 : (i + 1) % 50 = 0 <;> simp [h50]
  · intro smp hsmp
    rw [callsAtDouble_pushedSamples dim noise physics r i hi] at hsmp
    by_cases h50 : (i + 1) % 50 = 0
    · rw [if_pos h50, List.mem_singleton] at hsmp
      rw [hsmp]
    · rw [if_neg h50] at hsmp
      exact absurd hsmp (List.not_mem_nil _)
  · intro k
    simp only [doubleSum, Function.iterate_succ_apply']

/-- C9, witness: the state a run from the initial state has reached after 2499
invocations, and invocation 49 of that run. -/
theorem retarget_cadence_actual_witness :
    (run 19 (fun _ => 0) (fun _ r => r) 2499 (initialState bootRobot)).controlDecimation + 1 <
        SIZE_MODULUS ∧
      49 + 1 < SIZE_MODULUS ∧
      issuedTargets (controller 19 (fun _ => 0)
        (run 19 (fun _ => 0) (fun _ r => r) 2499 (initialState bootRobot))).2 ≠ [] ∧
      (run 19 (fun _ => 0) (fun _ r => r) (49 + 1) (initialState bootRobot)).gui.time =
        [49 * (1 / 400)] ∧
      pushedSamples (callsAtDouble 19 (fun _ => 0) (fun _ r => r) (initialState bootRobot) 49) ≠
        [] :=
  have hc := run_initial_controlDecimation 19 (fun _ => 0) (fun _ r => r) bootRobot 2499
    (by decide)
  have hs : (run 19 (fun _ => 0) (fun _ r => r) 2499 (initialState bootRobot)).controlDecimation
      + 1 < SIZE_MODULUS := by rw [hc]; decide
  have w := retarget_cadence_actual 19 (fun _ => 0) (fun _ r => r) bootRobot
    (run 19 (fun _ => 0) (fun _ r => r) 2499 (initialState bootRobot)) 49 hs (by decide)
  ⟨hs, by decide, (w.2.2.1 (by rw [hc])).1, w.2.2.2.2.2.1 (by decide),
    w.2.2.2.2.2.2.2.2.2.1.mpr (by decide)⟩

/-- C9, counterexample. In the arithmetic of `double`, the invocation entered
with counter 49 in a run from the initial state pushes one sample, and its time
is 282465768628677664 units of `2 ^ -61`, the double 0.12250000000000007. That
is not `(49 mod 2500) * dt`: not with `dt = 1/400`, not with the double 0.0025
for `dt` and an exact product, 282465768628677515 units, and not with the
product rounded to a double, 282465768628677504 units. -/
theorem recorded_time_counterexample :
    (pushedSamples
        (callsAtDouble 19 (fun _ => 0) (fun _ r => r) (initialState bootRobot) 49)).map
        (fun smp => smp.1) = [fromUnits 282465768628677664] ∧
      (0.12250000000000006 : ℚ) < fromUnits 282465768628677664 ∧
      fromUnits 282465768628677664 < 0.12250000000000008 ∧
      fromUnits 282465768628677664 ≠ ((49 % 2500 : Nat) : ℚ) * (1 / 400) ∧
      timeStepDouble = fromUnits 5764607523034235 ∧
      ((49 % 2500 : Nat) : ℚ) * timeStepDouble = fromUnits 282465768628677515 ∧
      roundDouble 282465768628677515 = 282465768628677504 ∧
      fromUnits 282465768628677664 ≠ fromUnits 282465768628677515 ∧
      fromUnits 282465768628677664 ≠ fromUnits 282465768628677504 := by
  refine ⟨?_, ?_, ?_, ?_, timeStepDouble_eq, ?_, by decide, ?_, ?_⟩
  · rw [callsAtDouble_pushedSamples _ _ _ _ 49 (by decide), if_pos (by decide)]
    simp only [List.map_cons, List.map_nil]
    rw [show 49 % 2500 = 49 from rfl, doubleSum_eq, doubleSumUnits_49]
  · norm_num [fromUnits]
  · norm_num [fromUnits]
  · norm_num [fromUnits]
  · rw [timeStepDouble_eq]; norm_num [fromUnits]
  · norm_num [fromUnits]
  · norm_num [fromUnits]

/-! ## The elapsed time -/

/-- After a reset, the next 2499 invocations are not resets, as long as the
counter does not wrap. -/
theorem no_reset_within_period (dim : Nat) (noise : Nat → ℚ) (physics : Nat → Robot → Robot)
    (s : State) (k : Nat) (hreset : s.controlDecimation % 2500 = 0) (hk : k ≤ 2499)
    (hwrap : s.controlDecimation + k < SIZE_MODULUS) (j : Nat) (hj1 : 1 ≤ j) (hj : j ≤ k) :
    clearedTelemetry (callsAt dim noise physics s j) = false := by
  rw [callsAt, controller_clearedTelemetry,
    run_controlDecimation dim noise physics s j (by omega)]
  simp; omega

/-- The elapsed time after a reset invocation and `k` invocations that are not
resets. -/
theorem run_time_after_reset (dim : Nat) (noise : Nat → ℚ) (physics : Nat → Robot → Robot)
    (s : State) (k : Nat) (hreset : s.controlDecimation % 2500 = 0)
    (hno : ∀ j, 1 ≤ j → j ≤ k → clearedTelemetry (callsAt dim noise physics s j) = false) :
    (run dim noise physics (k + 1) s).time = k * timeStep := by
  induction k with
  | zero =>
    rw [run_succ]
    show (controller dim noise s).1.time = _
    rw [controller_time, if_pos hreset]; simp
  | succ k ih =>
    have ih1 := ih fun j h1 h2 => hno j h1 (by omega)
    have hk := hno (k + 1) (by omega) (le_refl _)
    rw [callsAt, controller_clearedTelemetry, decide_eq_false_iff_not] at hk
    rw [run_succ]
    show (controller dim noise (run dim noise physics (k + 1) s)).1.time = _
    rw [controller_time, if_neg hk, ih1]; push_cast; ring

/-- C4. Elapsed-time accumulation, with the timestep 0.0025 = 1/400. Every
invocation is the two gates run on the state whose elapsed time has already
been advanced by the timestep; it leaves 0 on a reset and the old time plus the
timestep otherwise, and a sample it pushes carries the advanced time. From a
reset invocation on, after `k` further invocations, `1 ≤ k ≤ 2499`, none of
which is a reset, the elapsed time is `k` timesteps; and none of them is a
reset as long as the counter does not wrap on the way. -/
theorem elapsed_time_accumulation (dim : Nat) (noise : Nat → ℚ)
    (physics : Nat → Robot → Robot) (s : State) (k : Nat)
    (hreset : s.controlDecimation % 2500 = 0) (_hk1 : 1 ≤ k) (hk : k ≤ 2499) :
    timeStep = 1 / 400 ∧
      (∀ t : State, controller dim noise t =
        ((retargetGate dim noise (resetGate { t with time := t.time + 1 / 400 }).1).1,
          (resetGate { t with time := t.time + 1 / 400 }).2 ++
            (retargetGate dim noise (resetGate { t with time := t.time + 1 / 400 }).1).2)) ∧
      (∀ t : State, (controller dim noise t).1.time =
        if t.controlDecimation % 2500 = 0 then 0 else t.time + 1 / 400) ∧
      (∀ t : State, ∀ smp ∈ pushedSamples (controller dim noise t).2,
        smp.1 = t.time + 1 / 400) ∧
      (run dim noise physics 1 s).time = 0 ∧
      ((∀ j, 1 ≤ j → j ≤ k → clearedTelemetry (callsAt dim noise physics s j) = false) →
        (run dim noise physics (k + 1) s).time = k * (1 / 400)) ∧
      (s.controlDecimation + k < SIZE_MODULUS →
        (∀ j, 1 ≤ j → j ≤ k → clearedTelemetry (callsAt dim noise physics s j) = false) ∧
          (run dim noise physics (k + 1) s).time = k * (1 / 400)) := by
  refine ⟨timeStep_eq, ?_, ?_, ?_, ?_, ?_, ?_⟩
  · intro t
    rw [← timeStep_eq]; rfl
  · intro t
    rw [controller_time, timeStep_eq]
  · intro t smp hsmp
    rw [controller_pushedSamples] at hsmp
    split_ifs at hsmp with h50
    · rw [List.mem_singleton] at hsmp
      rw [hsmp, timeStep_eq]
    · exact absurd hsmp (List.not_mem_nil _)
  · have := run_time_after_reset dim noise physics s 0 hreset (fun j h1 h2 => by omega)
    simpa using this
  · intro hno
    rw [run_time_after_reset dim noise physics s k hreset hno, timeStep_eq]
  · intro hwrap
    have hno := no_reset_within_period dim noise physics s k hreset hk hwrap
    exact ⟨hno, by rw [run_time_after_reset dim noise physics s k hreset hno, timeStep_eq]⟩

/-- C4, witness: the 2499 invocations that follow the first one, a reset, of a
run from the initial state leave the elapsed time at 2499 timesteps. -/
theorem elapsed_time_accumulation_witness :
    (initialState bootRobot).controlDecimation % 2500 = 0 ∧
      (∀ j, 1 ≤ j → j ≤ 2499 →
        clearedTelemetry
          (callsAt 19 (fun _ => 0) (fun _ r => r) (initialState bootRobot) j) = false) ∧
      (run 19 (fun _ => 0) (fun _ r => r) (2499 + 1) (initialState bootRobot)).time =
        (2499 : Nat) * (1 / 400) :=
  have w := (elapsed_time_accumulation 19 (fun _ => 0) (fun _ r => r) (initialState bootRobot)
    2499 (by decide) (by decide) (by decide)).2.2.2.2.2.2 (by decide)
  ⟨by decide, w.1, w.2⟩

/-! ## Determinism -/

/-- C8. Determinism of the target sequence: two runs from the initial state
over the same number of invocations, with the same stream of draws and the same
robot dimension, issue the same targets at the same invocations, whatever the
robot each run starts with and whatever the physics engine makes the callback
read back in each. -/
theorem target_sequence_deterministic (dim : Nat) (noise : Nat → ℚ)
    (physics1 physics2 : Nat → Robot → Robot) (r1 r2 : Robot) (n : Nat) :
    targetLog dim noise physics1 (initialState r1) n =
        targetLog dim noise physics2 (initialState r2) n ∧
      ∀ i, issuedTargets (callsAt dim noise physics1 (initialState r1) i) =
        issuedTargets (callsAt dim noise physics2 (initialState r2) i) := by
  have hi := callsAt_issuedTargets_independent dim noise physics1 physics2 (initialState r1)
    (initialState r2) rfl rfl
  refine ⟨?_, hi⟩
  unfold targetLog
  congr 1
  funext i
  rw [hi i]

/-! ## The length of the telemetry buffers -/

/-- The buffers after `N ≥ 1` invocations of a run from the initial state. -/
theorem run_initial_gui_time (dim : Nat) (noise : Nat → ℚ) (physics : Nat → Robot → Robot)
    (r : Robot) (N : Nat) (h1 : 1 ≤ N) (hN : N < SIZE_MODULUS) :
    (run dim noise physics N (initialState r)).gui.time =
        (List.range (((N - 1) % 2500 + 1) / 50)).map
          (fun j : Nat => ((50 * j + 49 : Nat) : ℚ) * timeStep) ∧
      (run dim noise physics N (initialState r)).gui.jointSpeed.length =
        ((N - 1) % 2500 + 1) / 50 ∧
      (run dim noise physics N (initialState r)).gui.jointTorque.length =
        ((N - 1) % 2500 + 1) / 50 := by
  obtain ⟨n, rfl⟩ : ∃ n, N = n + 1 := ⟨N - 1, by omega⟩
  exact (run_initial_invariant dim noise physics r n hN).2

theorem run_initial_gui_length (dim : Nat) (noise : Nat → ℚ) (physics : Nat → Robot → Robot)
    (r : Robot) (N : Nat) (hN : N < SIZE_MODULUS) :
    (run dim noise physics N (initialState r)).gui.time.length =
      N / 50 - 50 * ((N - 1) / 2500) := by
  rcases Nat.eq_zero_or_pos N with h0 | h1
  · subst h0; rfl
  · rw [(run_initial_gui_time dim noise physics r N h1 hN).1]
    simp only [List.length_map, List.length_range]
    omega

/-- C3, as the code has it. After `N ≥ 1` invocations from the initial state,
the last of which is not a reset, and before the counter wraps, each of the
three telemetry buffers holds `floor(N/50)` entries minus 50 for every reset
event but the first: a reset discards the 50 samples pushed since the reset
before it, and the first reset finds the buffers empty. -/
theorem telemetry_length_amended (dim : Nat) (noise : Nat → ℚ) (physics : Nat → Robot → Robot)
    (r : Robot) (N : Nat) (h1 : 1 ≤ N) (hN : N < SIZE_MODULUS)
    (_hfinal : clearedTelemetry (callsAt dim noise physics (initialState r) (N - 1)) = false) :
    (run dim noise physics N (initialState r)).gui.time.length =
        N / 50 - 50 * (resetCount dim noise physics (initialState r) N - 1) ∧
      (run dim noise physics N (initialState r)).gui.jointSpeed.length =
        N / 50 - 50 * (resetCount dim noise physics (initialState r) N - 1) ∧
      (run dim noise physics N (initialState r)).gui.jointTorque.length =
        N / 50 - 50 * (resetCount dim noise physics (initialState r) N - 1) ∧
      1 ≤ resetCount dim noise physics (initialState r) N ∧
      50 * (resetCount dim noise physics (initialState r) N - 1) ≤ N / 50 := by
  have hg := run_initial_gui_time dim noise physics r N h1 hN
  have hl := run_initial_gui_length dim noise physics r N hN
  rw [resetCount_eq dim noise physics r N (by omega)]
  refine ⟨?_, ?_, ?_, ?_, ?_⟩
  · rw [hl]; omega
  · rw [hg.2.1]; omega
  · rw [hg.2.2]; omega
  · omega
  · omega

/-- C3, witness: 50 invocations from the initial state. -/
theorem telemetry_length_amended_witness :
    clearedTelemetry
        (callsAt 19 (fun _ => 0) (fun _ r => r) (initialState bootRobot) (50 - 1)) = false ∧
      (run 19 (fun _ => 0) (fun _ r => r) 50 (initialState bootRobot)).gui.time.length =
        50 / 50 - 50 * (resetCount 19 (fun _ => 0) (fun _ r => r) (initialState bootRobot) 50
          - 1) :=
  have hfinal : clearedTelemetry
      (callsAt 19 (fun _ => 0) (fun _ r => r) (initialState bootRobot) (50 - 1)) = false := by
    rw [callsAt_clearedTelemetry _ _ _ _ _ (by decide)]; decide
  ⟨hfinal, (telemetry_length_amended 19 (fun _ => 0) (fun _ r => r) bootRobot 50 (by decide)
    (by decide) hfinal).1⟩

/-- C3, counterexample. After 50 invocations from the initial state, the last
of which is not a reset, the buffer of times holds one entry and one reset
event has occurred, so `floor(50/50)` minus the number of reset events is 0,
not the length. -/
theorem telemetry_length_counterexample :
    clearedTelemetry
        (callsAt 19 (fun _ => 0) (fun _ r => r) (initialState bootRobot) 49) = false ∧
      (run 19 (fun _ => 0) (fun _ r => r) 50 (initialState bootRobot)).gui.time.length = 1 ∧
      resetCount 19 (fun _ => 0) (fun _ r => r) (initialState bootRobot) 50 = 1 ∧
      ((run 19 (fun _ => 0) (fun _ r => r) 50 (initialState bootRobot)).gui.time.length : ℤ) ≠
        (50 / 50 : ℤ) -
          (resetCount 19 (fun _ => 0) (fun _ r => r) (initialState bootRobot) 50 : ℤ) := by
  have hl := run_initial_gui_length 19 (fun _ => 0) (fun _ r => r) bootRobot 50 (by decide)
  have hr := resetCount_eq 19 (fun _ => 0) (fun _ r => r) bootRobot 50 (by decide)
  have hl1 : (run 19 (fun _ => 0) (fun _ r => r) 50 (initialState bootRobot)).gui.time.length
      = 1 := by rw [hl]
  have hr1 : resetCount 19 (fun _ => 0) (fun _ r => r) (initialState bootRobot) 50 = 1 := by
    rw [hr]
  refine ⟨?_, hl1, hr1, ?_⟩
  · rw [callsAt_clearedTelemetry _ _ _ _ _ (by decide)]; decide
  · rw [hl1, hr1]; decide

/-- C10. Closed form and bound for the telemetry length. After `N` invocations
from the initial state, before the counter wraps: for `N ≥ 1` the buffer of
times holds `floor(N/50) - 50 * floor((N-1)/2500)` entries; it never holds more
than 50; it holds exactly 50 if and only if `N` is a positive multiple of 2500,
and then the next invocation is a reset; and the recorded times are strictly
increasing. -/
theorem telemetry_length_closed_form (dim : Nat) (noise : Nat → ℚ)
    (physics : Nat → Robot → Robot) (r : Robot) (N : Nat) (hN : N < SIZE_MODULUS) :
    (1 ≤ N →
        (run dim noise physics N (initialState r)).gui.time.length =
            N / 50 - 50 * ((N - 1) / 2500) ∧
          50 * ((N - 1) / 2500) ≤ N / 50) ∧
      (run dim noise physics N (initialState r)).gui.time.length ≤ 50 ∧
      ((run dim noise physics N (initialState r)).gui.time.length = 50 ↔
        0 < N ∧ N % 2500 = 0) ∧
      ((run dim noise physics N (initialState r)).gui.time.length = 50 →
        clearedTelemetry (callsAt dim noise physics (initialState r) N) = true) ∧
      (run dim noise physics N (initialState r)).gui.jointSpeed.length =
        (run dim noise physics N (initialState r)).gui.time.length ∧
      (run dim noise physics N (initialState r)).gui.jointTorque.length =
        (run dim noise physics N (initialState r)).gui.time.length ∧
      List.Pairwise (fun a b => a < b) (run dim noise physics N (initialState r)).gui.time := by
  have hl := run_initial_gui_length dim noise physics r N hN
  rw [callsAt_clearedTelemetry dim noise physics r N hN, hl]
  refine ⟨fun h1 => ⟨rfl, by omega⟩, by omega, by omega, ?_, ?_, ?_, ?_⟩
  · intro h; simp; omega
  · rcases Nat.eq_zero_or_pos N with h0 | h1
    · subst h0; rfl
    · rw [(run_initial_gui_time dim noise physics r N h1 hN).2.1]; omega
  · rcases Nat.eq_zero_or_pos N with h0 | h1
    · subst h0; rfl
    · rw [(run_initial_gui_time dim noise physics r N h1 hN).2.2]; omega
  · rcases Nat.eq_zero_or_pos N with h0 | h1
    · subst h0; exact List.Pairwise.nil
    · rw [(run_initial_gui_time dim noise physics r N h1 hN).1, List.pairwise_map]
      exact (List.pairwise_lt_range _).imp fun hab => sampleTime_strictMono hab

/-- C10, witness: 2500 invocations from the initial state. -/
theorem telemetry_length_closed_form_witness :
    2500 < SIZE_MODULUS ∧
      (run 19 (fun _ => 0) (fun _ r => r) 2500 (initialState bootRobot)).gui.time.length =
        2500 / 50 - 50 * ((2500 - 1) / 2500) ∧
      (run 19 (fun _ => 0) (fun _ r => r) 2500 (initialState bootRobot)).gui.time.length ≤ 50 :=
  have w := telemetry_length_closed_form 19 (fun _ => 0) (fun _ r => r) bootRobot 2500
    (by decide)
  ⟨by decide, (w.1 (by decide)).1, w.2.1⟩

end Anymal
